import Mathlib

/-!
# Verification of the Legal Lens detection-and-extraction pipeline

Shallow embedding of the core pipeline of the `legal-lens` browser
extension (src/background.js, src/contentScript.js, popup script):

* the Chunking Summarizer (`splitText`, `summarizeChunksRecursively`),
* the Link Scorer (`detectTosLinks`),
* the Document Verifier (`verifyTosDocument`),
* the Extraction Orchestrator (`extractTosTextFromPage`,
  `findAndFetchTosDocument`),
* the Popup Detector state machine (`checkForTosPopup`,
  `handleTosDetection`, mutation processing),
* the Retry Messenger (`sendMessageWithRetry`).

JavaScript strings are modelled as Lean `String`/`List Char` (positions
are code points; the source uses UTF-16 units, which agree on the ASCII
inputs considered here).  DOM-dependent observations (computed style,
selector matching, rendered boxes) are modelled as fields of explicit
element records, and the while-loop of `splitText` — which is not
structurally terminating — is modelled with explicit fuel: `none` means
the loop has not finished within the given fuel, and a result that is
`none` for every fuel is a non-terminating run.
-/

set_option autoImplicit false
set_option maxRecDepth 2000
set_option maxHeartbeats 1000000

namespace LegalLens

/-! ## Generic string helpers (models of the JS string primitives used) -/

/-- Model of JS whitespace for `trim` / `\s`. -/
def isWs (c : Char) : Bool :=
  c == ' ' || c == '\t' || c == '\n' || c == '\r'

/-- `prefixAt needle hay`: `needle` is a prefix of `hay`. -/
def prefixAt : List Char → List Char → Bool
  | [], _ => true
  | _ :: _, [] => false
  | c :: cs, d :: ds => c == d && prefixAt cs ds

/-- Model of JS `String.prototype.includes`: `needle` occurs inside `hay`. -/
def containsSub (hay needle : List Char) : Bool :=
  prefixAt needle hay ||
    match hay with
    | [] => false
    | _ :: t => containsSub t needle

/-- String-level wrapper for `containsSub`. -/
def containsStr (hay needle : String) : Bool :=
  containsSub hay.toList needle.toList

/-- Drop trailing characters satisfying `p`. -/
def dropTrailing (p : Char → Bool) (l : List Char) : List Char :=
  (l.reverse.dropWhile p).reverse

/-- Model of JS `String.prototype.trim` on character lists. -/
def trimChars (l : List Char) : List Char :=
  dropTrailing isWs (l.dropWhile isWs)

/-- Kernel-computable model of JS `String.prototype.trim`. -/
def trimStr (s : String) : String :=
  String.mk (trimChars s.toList)

/-- Kernel-computable model of JS `String.prototype.toLowerCase`
(ASCII, per `Char.toLower`). -/
def toLowerStr (s : String) : String :=
  String.mk (s.toList.map Char.toLower)

/-- Helper for `replaceWsRuns`: `inRun` records whether the previous
character belonged to a whitespace run (whose replacement was already
emitted). -/
def replaceWsAux (r : List Char) : List Char → Bool → List Char
  | [], _ => []
  | c :: cs, inRun =>
    if isWs c then (if inRun then [] else r) ++ replaceWsAux r cs true
    else c :: replaceWsAux r cs false

/-- Model of JS `text.replace(/\s+/g, r)`: replace every maximal
whitespace run by `r`. -/
def replaceWsRuns (r : List Char) (l : List Char) : List Char :=
  replaceWsAux r l false

/-- Model of JS `fullText.lastIndexOf(".", i)` scanning downward from
index `i` (the JS `fromIndex` is inclusive). -/
def lastDotAux (cs : List Char) : Nat → Option Nat
  | 0 => if cs.getD 0 ' ' == '.' then some 0 else none
  | i + 1 => if cs.getD (i + 1) ' ' == '.' then some (i + 1) else lastDotAux cs i

/-- Model of JS `fullText.lastIndexOf(".", fromIndex)` (with the clamp of
`fromIndex` to the last index; `none` models the JS result `-1`). -/
def lastIndexOfDot (cs : List Char) (fromIndex : Nat) : Option Nat :=
  lastDotAux cs (min fromIndex (cs.length - 1))

/-! ## Chunking Summarizer (src/background.js lines 498-544) -/

/-- `const quotaTokens = 3000;` (background.js line 499). -/
def quotaTokens : Nat := 3000

/-- `const MAX_LENGTH = Math.max(1000, Math.floor(quotaTokens * 3));`
(background.js line 500). -/
def MAX_LENGTH : Nat := max 1000 (quotaTokens * 3)

/-- `const OVERLAP = 200;` (background.js line 501). -/
def OVERLAP : Nat := 200

/-- `const MAX_DEPTH = 8;` (background.js line 524). -/
def MAX_DEPTH : Nat := 8

/-- One iteration's cut position (background.js lines 508-514):
`let end = start + maxLength; if (end < textLen) { boundary = lastIndexOf;
end = boundary > start ? boundary + 1 : end } else { end = textLen }`. -/
def nextEnd (T : List Char) (maxLength start : Nat) : Nat :=
  if start + maxLength < T.length then
    match lastIndexOfDot T (start + maxLength) with
    | some b => if start < b then b + 1 else start + maxLength
    | none => start + maxLength
  else T.length

/-- One iteration's chunk (background.js line 515):
`fullText.slice(start, end).trim()`. -/
def chunkAt (T : List Char) (start endPos : Nat) : List Char :=
  trimChars ((T.drop start).take (endPos - start))

/-- The while-loop of `splitText` (background.js lines 507-519), with
explicit fuel (one unit per iteration; `none` = the loop has not reached
the end of the text within `fuel` iterations).  Returns the pushed
chunks together with the source window `(start, end)` of every
iteration, including iterations whose chunk was dropped as empty after
trimming.  `Nat` subtraction makes `endPos - overlap` the JS
`Math.max(0, end - overlap)`. -/
def splitTextLoop (T : List Char) (maxLength overlap : Nat) :
    Nat → Nat → Option (List (List Char) × List (Nat × Nat))
  | 0, _ => none
  | fuel + 1, start =>
    if start < T.length then
      if T.length ≤ nextEnd T maxLength start then
        some (if (chunkAt T start (nextEnd T maxLength start)).isEmpty then []
              else [chunkAt T start (nextEnd T maxLength start)],
              [(start, nextEnd T maxLength start)])
      else
        match splitTextLoop T maxLength overlap fuel
            (nextEnd T maxLength start - overlap) with
        | none => none
        | some (chunks, windows) =>
          some ((if (chunkAt T start (nextEnd T maxLength start)).isEmpty
                 then chunks
                 else chunkAt T start (nextEnd T maxLength start) :: chunks),
                (start, nextEnd T maxLength start) :: windows)
    else
      some ([], [])

/-- `splitText` (background.js lines 503-521): the chunk list alone. -/
def splitText (fullText : String) (maxLength : Nat := MAX_LENGTH)
    (overlap : Nat := OVERLAP) (fuel : Nat := fullText.length + 1) :
    Option (List String) :=
  (splitTextLoop fullText.toList maxLength overlap fuel 0).map
    (fun r => r.1.map (fun cs => String.mk cs))

/-- Result of a summarization run: the returned text and the model
inputs of every `model.summarize` call, in call order. -/
structure SummarizeRun where
  result : String
  calls : List String
  deriving Repr, DecidableEq

/-- `summarizeChunksRecursively` (background.js lines 523-544).  The
host model is abstracted as a pure function `model : String → String`
(the shared-context option string is dropped; it does not affect the
control flow).  `splitFuel` is the fuel handed to `splitText`; `none`
propagates a non-terminating split. -/
def summarizeChunksRecursively (model : String → String) (splitFuel : Nat)
    (depth : Nat) (inputText : String) : Option SummarizeRun :=
  if MAX_DEPTH < depth then
    some ⟨inputText.take MAX_LENGTH, []⟩
  else if inputText.length ≤ MAX_LENGTH then
    some ⟨model inputText, [inputText]⟩
  else
    match splitText inputText MAX_LENGTH OVERLAP splitFuel with
    | none => none
    | some chunks =>
      let partials := chunks.map model
      let combined := String.intercalate "\n" partials
      match summarizeChunksRecursively model splitFuel (depth + 1) combined with
      | none => none
      | some rest => some ⟨rest.result, chunks ++ rest.calls⟩
termination_by MAX_DEPTH + 1 - depth
decreasing_by
  simp only [MAX_DEPTH] at *
  omega

/-! ## Helper lemmas about the string primitives -/

theorem getD_replicate (c d : Char) (n i : Nat) :
    (List.replicate n c).getD i d = if i < n then c else d := by
  induction n generalizing i with
  | zero => simp
  | succ m ih =>
    cases i with
    | zero => simp [List.replicate_succ]
    | succ j => simpa [List.replicate_succ, Nat.succ_lt_succ_iff] using ih j

theorem trimChars_replicate_space (n : Nat) :
    trimChars (List.replicate n ' ') = [] := by
  have h : (List.replicate n ' ').dropWhile isWs = [] := by
    rw [List.dropWhile_replicate]
    rw [show isWs ' ' = true from rfl]
    simp
  rw [trimChars, h]
  rfl

/-! ## Lemmas for the pathological `splitText` input (claim C1)

The input is `"a."` followed by 10000 `'b'`s: its length (10002) exceeds
`MAX_LENGTH` (9000), its only sentence period sits at index 1, so every
iteration of the splitting loop computes `end = boundary + 1 = 2` and
then `start = Math.max(0, 2 - 200) = 0`: the loop never advances. -/

/-- The pathological text: `"a."` followed by 10000 `'b'`s. -/
def pathoChars : List Char := 'a' :: '.' :: List.replicate 10000 'b'

/-- The pathological text as a string. -/
def pathoStr : String := String.mk pathoChars

theorem pathoChars_length : pathoChars.length = 10002 := by
  rw [pathoChars, List.length_cons, List.length_cons, List.length_replicate]

theorem pathoChars_getD (i : Nat) :
    pathoChars.getD i ' ' =
      if i = 0 then 'a' else if i = 1 then '.'
      else if i < 10002 then 'b' else ' ' := by
  match i with
  | 0 => rfl
  | 1 => rfl
  | j + 2 =>
    simp only [pathoChars, List.getD_cons_succ, getD_replicate]
    by_cases h : j < 10000
    · have h0 : ¬(j + 2 = 0) := by omega
      have h1 : ¬(j + 2 = 1) := by omega
      have h2 : j + 2 < 10002 := by omega
      simp [h, h0, h1, h2]
    · have h0 : ¬(j + 2 = 0) := by omega
      have h1 : ¬(j + 2 = 1) := by omega
      have h2 : ¬(j + 2 < 10002) := by omega
      simp [h, h0, h1, h2]

theorem lastDotAux_patho (i : Nat) (h1 : 1 ≤ i) (h2 : i ≤ 10001) :
    lastDotAux pathoChars i = some 1 := by
  induction i with
  | zero => omega
  | succ j ih =>
    rcases Nat.eq_or_lt_of_le h1 with h | h
    · have hj : j = 0 := by omega
      subst hj
      have hgd : pathoChars.getD 1 ' ' = '.' := rfl
      rw [lastDotAux, hgd]
      simp
    · have hgd : pathoChars.getD (j + 1) ' ' = 'b' := by
        rw [pathoChars_getD]
        have : ¬(j + 1 = 0) := by omega
        have h1' : ¬(j + 1 = 1) := by omega
        have h2' : j + 1 < 10002 := by omega
        simp [this, h1', h2']
      rw [lastDotAux, hgd]
      simp only [show ('b' == '.') = false from rfl, Bool.false_eq_true,
        if_false]
      exact ih (by omega) (by omega)

theorem lastIndexOfDot_patho : lastIndexOfDot pathoChars 9000 = some 1 := by
  rw [lastIndexOfDot, pathoChars_length]
  norm_num
  exact lastDotAux_patho 9000 (by norm_num) (by norm_num)

theorem nextEnd_patho : nextEnd pathoChars MAX_LENGTH 0 = 2 := by
  rw [nextEnd, pathoChars_length]
  simp [MAX_LENGTH, quotaTokens, lastIndexOfDot_patho]

/-- The splitting loop never terminates on the pathological input: for
every fuel the loop is still running. -/
theorem splitTextLoop_patho_none (fuel : Nat) :
    splitTextLoop pathoChars MAX_LENGTH OVERLAP fuel 0 = none := by
  induction fuel with
  | zero => rfl
  | succ n ih =>
    rw [splitTextLoop]
    have h0 : 0 < pathoChars.length := by rw [pathoChars_length]; norm_num
    rw [if_pos h0, nextEnd_patho]
    have hlen : ¬(pathoChars.length ≤ 2) := by rw [pathoChars_length]; norm_num
    rw [if_neg hlen]
    have hsub : 2 - OVERLAP = 0 := by simp [OVERLAP]
    rw [hsub, ih]

/-! ## Lemmas for an all-whitespace `splitText` input (claim C8) -/

theorem lastDotAux_spaces (n i : Nat) :
    lastDotAux (List.replicate n ' ') i = none := by
  induction i with
  | zero =>
    rw [lastDotAux, getD_replicate]
    split <;> rfl
  | succ j ih =>
    rw [lastDotAux, getD_replicate]
    split <;> simpa using ih

theorem lastIndexOfDot_spaces (n fromIndex : Nat) :
    lastIndexOfDot (List.replicate n ' ') fromIndex = none := by
  rw [lastIndexOfDot]
  exact lastDotAux_spaces n _

theorem chunkAt_spaces (n s e : Nat) :
    chunkAt (List.replicate n ' ') s e = [] := by
  rw [chunkAt, List.drop_replicate, List.take_replicate, trimChars_replicate_space]

/-- The all-whitespace input of length 9001 used against claim C8. -/
def spacesChars : List Char := List.replicate 9001 ' '

/-- The all-whitespace input as a string. -/
def spacesStr : String := String.mk spacesChars

theorem lastIndexOfDot_spacesChars (fromIndex : Nat) :
    lastIndexOfDot spacesChars fromIndex = none := by
  rw [spacesChars]
  exact lastIndexOfDot_spaces 9001 fromIndex

theorem chunkAt_spacesChars (s e : Nat) : chunkAt spacesChars s e = [] := by
  rw [spacesChars]
  exact chunkAt_spaces 9001 s e

theorem MAX_LENGTH_eq : MAX_LENGTH = 9000 := by
  unfold MAX_LENGTH quotaTokens
  rw [Nat.max_def]
  norm_num

theorem spacesChars_length : spacesChars.length = 9001 := by
  rw [spacesChars, List.length_replicate]

theorem nextEnd_spaces_0 : nextEnd spacesChars MAX_LENGTH 0 = 9000 := by
  have h1 : (0 : Nat) + MAX_LENGTH < spacesChars.length := by
    rw [spacesChars_length, MAX_LENGTH_eq]
    norm_num
  rw [nextEnd, if_pos h1,
    show spacesChars = List.replicate 9001 ' ' from rfl, lastIndexOfDot_spaces]
  rw [MAX_LENGTH_eq]

theorem nextEnd_spaces_8800 : nextEnd spacesChars MAX_LENGTH 8800 = 9001 := by
  have h1 : ¬(8800 + MAX_LENGTH < spacesChars.length) := by
    rw [spacesChars_length, MAX_LENGTH_eq]
    norm_num
  rw [nextEnd, if_neg h1, spacesChars_length]

/-- Concrete run of the splitting loop on the all-whitespace input: both
iteration windows produce whitespace-only chunks, which the loop drops,
so the final chunk list is empty although the loop terminates. -/
theorem splitTextLoop_spaces_eval :
    splitTextLoop spacesChars MAX_LENGTH OVERLAP 3 0 =
      some ([], [(0, 9000), (8800, 9001)]) := by
  have hlen : spacesChars.length = 9001 := by
    rw [spacesChars, List.length_replicate]
  show splitTextLoop spacesChars MAX_LENGTH OVERLAP (2 + 1) 0 = _
  rw [splitTextLoop, if_pos (by rw [hlen]; norm_num), nextEnd_spaces_0]
  rw [if_neg (by rw [hlen]; norm_num)]
  rw [show (9000 : Nat) - OVERLAP = 8800 from by norm_num [OVERLAP]]
  rw [show (2 : Nat) = 1 + 1 from rfl]
  rw [splitTextLoop, if_pos (by rw [hlen]; norm_num), nextEnd_spaces_8800]
  rw [if_pos (by rw [hlen])]
  rw [chunkAt_spacesChars, chunkAt_spacesChars]
  rfl

/-! ## The window invariant of the splitting loop (claim C8, amended) -/

theorem nextEnd_gt (T : List Char) (maxLength start : Nat)
    (hs : start < T.length) (hml : 0 < maxLength) :
    start < nextEnd T maxLength start := by
  rw [nextEnd]
  split
  · cases h : lastIndexOfDot T (start + maxLength) with
    | none =>
      show start < start + maxLength
      omega
    | some b =>
      show start < if start < b then b + 1 else start + maxLength
      split <;> omega
  · exact hs

/-- Invariant of a terminating run of the splitting loop started at
`start`: the recorded windows cover `[start, T.length)` without gaps,
the first window starts at `start`, each window begins `overlap`
characters before the previous window's end, and the produced chunks
are exactly the trimmed slices of the windows whose trim is nonempty. -/
theorem splitTextLoop_inv (T : List Char) (maxLength overlap : Nat)
    (hml : 0 < maxLength) (hov : 0 < overlap) :
    ∀ fuel start out, splitTextLoop T maxLength overlap fuel start = some out →
      (∀ p, start ≤ p → p < T.length → ∃ w, w ∈ out.2 ∧ w.1 ≤ p ∧ p < w.2) ∧
      (∀ w, out.2.head? = some w → w.1 = start) ∧
      List.Chain' (fun w1 w2 => w2.1 < w1.2 ∧ w2.1 = w1.2 - overlap) out.2 ∧
      out.1 = out.2.filterMap (fun w =>
        if (chunkAt T w.1 w.2).isEmpty then none
        else some (chunkAt T w.1 w.2)) := by
  intro fuel
  induction fuel with
  | zero => intro start out h; exact absurd h (by rw [splitTextLoop]; simp)
  | succ fuel ih =>
    intro start out h
    rw [splitTextLoop] at h
    by_cases hs : start < T.length
    · rw [if_pos hs] at h
      have hE : start < nextEnd T maxLength start := nextEnd_gt T _ _ hs hml
      by_cases hbreak : T.length ≤ nextEnd T maxLength start
      · rw [if_pos hbreak] at h
        obtain rfl := Option.some.inj h
        refine ⟨?_, ?_, ?_, ?_⟩
        · intro p hp1 hp2
          exact ⟨(start, nextEnd T maxLength start), List.mem_singleton_self _,
            hp1, by omega⟩
        · intro w hw
          simp only [List.head?_cons, Option.some.injEq] at hw
          rw [← hw]
        · exact List.chain'_singleton _
        · by_cases hc : (chunkAt T start (nextEnd T maxLength start)).isEmpty
          · rw [List.isEmpty_iff] at hc
            simp [hc]
          · rw [List.isEmpty_iff] at hc
            simp [hc]
      · rw [if_neg hbreak] at h
        cases hrec : splitTextLoop T maxLength overlap fuel
            (nextEnd T maxLength start - overlap) with
        | none => rw [hrec] at h; exact absurd h (by simp)
        | some rest =>
          obtain ⟨chunks, windows⟩ := rest
          rw [hrec] at h
          obtain rfl := Option.some.inj h
          obtain ⟨cov, hd, chain, hch⟩ := ih _ _ hrec
          refine ⟨?_, ?_, ?_, ?_⟩
          · intro p hp1 hp2
            by_cases hp : p < nextEnd T maxLength start
            · exact ⟨(start, nextEnd T maxLength start),
                List.mem_cons_self _ _, hp1, hp⟩
            · obtain ⟨w, hw, hw1, hw2⟩ := cov p (by omega) hp2
              exact ⟨w, List.mem_cons_of_mem _ hw, hw1, hw2⟩
          · intro w hw
            simp only [List.head?_cons, Option.some.injEq] at hw
            rw [← hw]
          · refine List.chain'_cons'.mpr ⟨?_, chain⟩
            intro w hw
            have := hd w hw
            constructor
            · omega
            · exact this
          · rw [List.filterMap_cons]
            cases hc : (chunkAt T start (nextEnd T maxLength start)).isEmpty with
            | true =>
              simp only [hc]
              simpa using hch
            | false =>
              simp only [hc]
              simpa using hch
    · rw [if_neg hs] at h
      obtain rfl := Option.some.inj h
      refine ⟨?_, ?_, ?_, ?_⟩
      · intro p hp1 hp2
        omega
      · intro w hw
        simp at hw
      · exact List.chain'_nil
      · rfl

/-! ## Claim theorems for the Chunking Summarizer -/

/-- **C1** (code-bug evidence).  The Chunking Summarizer does *not*
terminate for every input text: on the pathological input `"a."`
followed by 10000 `'b'`s (length 10002 > MAX_LENGTH = 9000, single
sentence period at index 1) the chunk-splitting loop of `splitText`
recomputes `end = boundary + 1 = 2` and `start = max(0, 2 - 200) = 0`
forever, so for every fuel both `splitText` and the summarization
recursion built on it are still running. -/
theorem chunking_summarizer_diverges (fuel : Nat) (model : String → String) :
    splitText pathoStr MAX_LENGTH OVERLAP fuel = none ∧
    summarizeChunksRecursively model fuel 0 pathoStr = none := by
  have hsplit : splitText pathoStr MAX_LENGTH OVERLAP fuel = none := by
    rw [splitText, show pathoStr.toList = pathoChars from rfl,
      splitTextLoop_patho_none]
    rfl
  refine ⟨hsplit, ?_⟩
  rw [summarizeChunksRecursively]
  rw [if_neg (Nat.not_lt_zero MAX_DEPTH)]
  have hlen : pathoStr.length = 10002 := by
    rw [show pathoStr.length = pathoChars.length from rfl, pathoChars_length]
  rw [if_neg (by rw [hlen, MAX_LENGTH_eq]; norm_num)]
  rw [hsplit]

/-- **C7**.  For every text whose length is at most MAX_LENGTH, the
summarization recursion performs exactly one model call, on the whole
text, and returns that call's result unchanged: no splitting, no
recursion. -/
theorem summarizer_single_call (model : String → String) (splitFuel : Nat)
    (text : String) (h : text.length ≤ MAX_LENGTH) :
    summarizeChunksRecursively model splitFuel 0 text =
      some ⟨model text, [text]⟩ := by
  rw [summarizeChunksRecursively]
  rw [if_neg (Nat.not_lt_zero MAX_DEPTH)]
  rw [if_pos h]

/-- Witness for C7 at a concrete short text and model. -/
theorem summarizer_single_call_witness :
    summarizeChunksRecursively (fun _ => "ok") 5 0 "tos" =
      some ⟨"ok", ["tos"]⟩ :=
  summarizer_single_call (fun _ => "ok") 5 "tos" (by decide)

/-- **C8, counterexample**.  An all-whitespace text of length 9001
(> MAX_LENGTH = 9000) splits into *no* chunks at all (both windows trim
to empty and are dropped), so the produced chunks do not cover any
character position of the text, refuting the claimed gap-free
coverage. -/
theorem splitText_coverage_counterexample :
    MAX_LENGTH < spacesStr.length ∧
    splitText spacesStr MAX_LENGTH OVERLAP 3 = some [] := by
  constructor
  · rw [show spacesStr.length = spacesChars.length from rfl,
      spacesChars_length, MAX_LENGTH_eq]
    norm_num
  · rw [splitText, show spacesStr.toList = spacesChars from rfl,
      splitTextLoop_spaces_eval]
    rfl

/-- **C8 (amended)**.  On every input on which the splitting loop
terminates, the successive source windows cover every character
position of the text with no gaps, each window starts OVERLAP
characters before the previous window's end (so consecutive windows
overlap), and the produced chunks are exactly the trimmed slices of
the windows whose trim is nonempty — whitespace-only windows are
dropped. -/
theorem splitText_window_coverage (T : List Char) (fuel : Nat)
    (out : List (List Char) × List (Nat × Nat))
    (h : splitTextLoop T MAX_LENGTH OVERLAP fuel 0 = some out) :
    (∀ p, p < T.length → ∃ w, w ∈ out.2 ∧ w.1 ≤ p ∧ p < w.2) ∧
    List.Chain' (fun w1 w2 => w2.1 < w1.2 ∧ w2.1 = w1.2 - OVERLAP) out.2 ∧
    out.1 = out.2.filterMap (fun w =>
      if (chunkAt T w.1 w.2).isEmpty then none
      else some (chunkAt T w.1 w.2)) := by
  obtain ⟨cov, hd, chain, hch⟩ :=
    splitTextLoop_inv T MAX_LENGTH OVERLAP
      (by rw [MAX_LENGTH_eq]; norm_num) (by norm_num [OVERLAP]) fuel 0 out h
  exact ⟨fun p hp => cov p (Nat.zero_le p) hp, chain, hch⟩

/-- Witness for C8 (amended) on a concrete terminating run. -/
theorem splitText_window_coverage_witness :
    (∀ p, p < (['a', 'b'] : List Char).length →
      ∃ w, w ∈ [((0 : Nat), (2 : Nat))] ∧ w.1 ≤ p ∧ p < w.2) ∧
    List.Chain' (fun w1 w2 => w2.1 < w1.2 ∧ w2.1 = w1.2 - OVERLAP)
      [((0 : Nat), (2 : Nat))] ∧
    [(['a', 'b'] : List Char)] = [((0 : Nat), (2 : Nat))].filterMap (fun w =>
      if (chunkAt ['a', 'b'] w.1 w.2).isEmpty then none
      else some (chunkAt ['a', 'b'] w.1 w.2)) :=
  splitText_window_coverage ['a', 'b'] 1 ([['a', 'b']], [(0, 2)]) (by decide)

/-! ## Detection configuration (src/contentScript.js lines 7-71) -/

/-- `DETECTION_CONFIG.keywords` (contentScript.js lines 9-21). -/
def keywords : List String :=
  ["terms of service", "terms and conditions", "privacy policy",
   "cookie policy", "user agreement", "end user license agreement",
   "accept terms", "i agree", "agree and continue", "privacy notice",
   "terms of use"]

/-- `DETECTION_CONFIG.linkKeywords` (contentScript.js lines 38-51). -/
def linkKeywords : List String :=
  ["terms of service", "terms and conditions", "terms of use",
   "privacy policy", "privacy notice", "cookie policy", "legal",
   "user agreement", "eula", "tos", "terms", "privacy"]

/-- `DETECTION_CONFIG.minTextLength` (contentScript.js line 54). -/
def minTextLength : Nat := 50

/-- `DETECTION_CONFIG.minTosDocumentLength` (contentScript.js line 57). -/
def minTosDocumentLength : Nat := 500

/-! ## Link Scorer (`detectTosLinks`, contentScript.js lines 797-872) -/

/-- What the scorer reads from an `<a href>` element: the `href`
attribute, the text content, and the `title` / `aria-label`
attributes (absent attributes are the empty string, as `|| ""`). -/
structure Anchor where
  href : String
  text : String
  title : String
  ariaLabel : String
  deriving Repr, DecidableEq

/-- A scored candidate link (the objects pushed at lines 851-856). -/
structure TosLink where
  url : String
  text : String
  confidence : Nat
  keyword : String
  deriving Repr, DecidableEq

/-- String-level `replace(/\s+/g, r)`. -/
def replaceWsStr (s r : String) : String :=
  String.mk (replaceWsRuns r.toList s.toList)

/-- The first keyword loop (contentScript.js lines 819-832): the first
keyword contained in the combined text/title/aria-label haystack sets
the confidence (100 on exact link-text match, 80 on link-text
substring, 60 otherwise) and the loop breaks. -/
def scoreTextLoop (text combined : String) : List String → Nat × String
  | [] => (0, "")
  | k :: ks =>
    if containsStr combined k then
      (if text == k then 100
       else if containsStr text k then 80
       else 60, k)
    else scoreTextLoop text combined ks

/-- The URL loop (contentScript.js lines 834-845): every keyword whose
slug (spaces to dashes) or concatenated form occurs in the lowercased
href raises the confidence to at least 70; the matched keyword is
recorded only if none was recorded before. -/
def scoreUrlFold (urlLower : String) (init : Nat × String) : Nat × String :=
  linkKeywords.foldl
    (fun acc k =>
      if containsStr urlLower (replaceWsStr k "-") ||
          containsStr urlLower (replaceWsStr k "") then
        (max acc.1 70, if acc.2 == "" then k else acc.2)
      else acc)
    init

/-- Per-anchor scoring (the body of the `allLinks.forEach` at
contentScript.js lines 801-858).  `resolve` abstracts
`new URL(href, window.location.href).href`. -/
def scoreAnchor (resolve : String → String) (a : Anchor) : Option TosLink :=
  if a.href == "" || prefixAt "javascript:".toList a.href.toList ||
      a.href == "#" then
    none
  else
    let text := toLowerStr (trimStr a.text)
    let combinedText := text ++ " " ++ toLowerStr a.title ++ " " ++
      toLowerStr a.ariaLabel
    let scored := scoreUrlFold (toLowerStr a.href)
      (scoreTextLoop text combinedText linkKeywords)
    if 0 < scored.1 then
      some ⟨resolve a.href, if text == "" then a.href else text,
        scored.1, scored.2⟩
    else none

/-- `detectTosLinks` (contentScript.js lines 797-872): score every
anchor, keep the matches, sort descending by confidence (stable). -/
def detectTosLinks (anchors : List Anchor) (resolve : String → String) :
    List TosLink :=
  (anchors.filterMap (scoreAnchor resolve)).mergeSort
    (fun a b => b.confidence ≤ a.confidence)

/-! ## Document Verifier (`verifyTosDocument`, contentScript.js 920-1024)

The DOM stages (DOMParser, removal of script/style/nav/header/footer
subtrees, content-root selection) are abstracted: the verifier's input
is `Except Unit String` — `.ok raw` carries the text content of the
selected content root, `.error ()` models an internal exception caught
by the `catch` block at lines 1015-1023. -/

/-- The fixed legal-term list (contentScript.js lines 971-987). -/
def legalTerms : List String :=
  ["terms of service", "terms and conditions", "privacy policy",
   "agreement", "liability", "warranty", "intellectual property",
   "user conduct", "termination", "governing law", "disclaimer",
   "copyright", "license", "prohibited", "consent"]

/-- `text.replace(/\s+/g, " ").trim()` (contentScript.js line 956). -/
def cleanWhitespace (s : String) : String :=
  trimStr (String.mk (replaceWsRuns [' '] s.toList))

/-- The verifier's result object (contentScript.js lines 960-965,
1008-1014, 1017-1022); `confidence` is exact rational arithmetic for
the JS `Math.min(100, (keywordMatches / legalTerms.length) * 100)`. -/
structure VerifyResult where
  isToS : Bool
  confidence : ℚ
  text : String
  keywordMatches : Nat
  reason : String
  deriving Repr, DecidableEq

/-- Number of distinct legal terms present (lines 989-993). -/
def countLegalTerms (textLower : String) : Nat :=
  (legalTerms.filter (fun t => containsStr textLower t)).length

/-- The `try` body of `verifyTosDocument` from the point where the
content root's text has been extracted (lines 955-1014). -/
def verifyCore (raw : String) : VerifyResult :=
  let text := cleanWhitespace raw
  if text.length < minTosDocumentLength then
    ⟨false, 0, "", 0, "Document too short"⟩
  else
    let keywordMatches := countLegalTerms (toLowerStr text)
    let confidence :=
      min 100 ((keywordMatches : ℚ) / (legalTerms.length : ℚ) * 100)
    ⟨decide (3 ≤ keywordMatches), confidence, text, keywordMatches,
      if 3 ≤ keywordMatches then "Valid ToS document"
      else "Insufficient legal terms"⟩

/-- `verifyTosDocument` (contentScript.js lines 920-1024): total on its
interface; any internal exception lands in the `catch` result. -/
def verifyTosDocument : Except Unit String → VerifyResult
  | .error _ => ⟨false, 0, "", 0, "Parse error"⟩
  | .ok raw => verifyCore raw

/-! ## Extraction Orchestrator (contentScript.js lines 717-785, 1030-1087) -/

/-- What the orchestrator reads from a DOM element it may extract from:
visibility (computed style and rendered box, abstracted) and the text
content that `extractTosText` would clean (script/style removal
abstracted into `raw`). -/
structure ScanElement where
  visible : Bool
  raw : String
  deriving Repr, DecidableEq

/-- `extractTosText` (contentScript.js lines 541-560): clone, strip
scripts (abstracted into `raw`), collapse whitespace, trim. -/
def extractTosText (e : ScanElement) : String :=
  cleanWhitespace e.raw

/-- The page state the orchestrator observes.  `fetch` models the
`FETCH_TOS_PAGE` round-trip (`none` = fetch failed / returned no html);
a successful fetch carries the Document Verifier input for that html.
`detectedElements` is the `detectedElements` set in insertion order;
`selectorElements` are the elements enumerated by the common-selector
scan, in document order. -/
structure Page where
  url : String
  anchors : List Anchor
  resolve : String → String
  fetch : String → Option (Except Unit String)
  detectedElements : List ScanElement
  selectorElements : List ScanElement

/-- Result of `findAndFetchTosDocument` (lines 1030-1087).  The
`message`/`confidence` fields of the JS object are not modelled; no
claim mentions them. -/
structure FetchOutcome where
  success : Bool
  text : String
  url : String
  source : String
  linkText : String
  deriving Repr, DecidableEq

/-- The fetch-and-verify loop over ranked candidates (lines 1048-1074):
first verified document wins; fetch or verification failures move to
the next candidate. -/
def tryLinks (fetch : String → Option (Except Unit String)) :
    List TosLink → FetchOutcome
  | [] => ⟨false, "", "", "none", ""⟩
  | l :: rest =>
    match fetch l.url with
    | none => tryLinks fetch rest
    | some payload =>
      if (verifyTosDocument payload).isToS then
        ⟨true, (verifyTosDocument payload).text, l.url, "fetched", l.text⟩
      else tryLinks fetch rest

/-- `findAndFetchTosDocument` (contentScript.js lines 1030-1087). -/
def findAndFetchTosDocument (page : Page) : FetchOutcome :=
  if (detectTosLinks page.anchors page.resolve).isEmpty then
    ⟨false, "", "", "none", ""⟩
  else tryLinks page.fetch (detectTosLinks page.anchors page.resolve)

/-- The object returned by `extractTosTextFromPage` (lines 728-733,
751-755, 767-771, 780-784). -/
structure ExtractionResult where
  text : String
  url : String
  source : String
  linkText : String
  deriving Repr, DecidableEq

/-- The last-resort scan over common popup selectors (lines 760-778):
first visible element whose extracted text meets the minimum length. -/
def scanSelectorElements (page : Page) : ExtractionResult :=
  match page.selectorElements.find?
      (fun el => el.visible && decide (minTextLength ≤ (extractTosText el).length)) with
  | some el => ⟨extractTosText el, page.url, "current-page-element", ""⟩
  | none => ⟨"", "", "none", ""⟩

/-- `extractTosTextFromPage` (contentScript.js lines 717-785). -/
def extractTosTextFromPage (page : Page) : ExtractionResult :=
  if (findAndFetchTosDocument page).success &&
      !((findAndFetchTosDocument page).text == "") then
    ⟨(findAndFetchTosDocument page).text, (findAndFetchTosDocument page).url,
      "fetched-link", (findAndFetchTosDocument page).linkText⟩
  else
    match page.detectedElements with
    | e :: _ =>
      if minTextLength ≤ (extractTosText e).length then
        ⟨extractTosText e, page.url, "current-page-popup", ""⟩
      else scanSelectorElements page
    | [] => scanSelectorElements page

/-! ## Popup Detector (contentScript.js lines 100-325)

DOM observations are modelled as fields of an element record:
`matchesExclude` / `insideExcluded` abstract `element.matches(sel)` /
`element.closest(sel)` over the exclude-selector family (lines 60-70),
`visible` abstracts `isElementVisible` (lines 238-252), `zIndex`
abstracts `parseInt(style.zIndex) || 0`; `className` / `idAttr` /
`text` are the element's actual strings. -/

/-- A DOM element as the detector observes it; `key` is node identity. -/
structure Elem where
  key : Nat
  matchesExclude : Bool
  insideExcluded : Bool
  visible : Bool
  zIndex : Int
  className : String
  idAttr : String
  text : String
  deriving Repr, DecidableEq

/-- `shouldExcludeElement` (contentScript.js lines 214-233): the element
matches an exclude selector or lies inside an excluded container. -/
def shouldExcludeElement (e : Elem) : Bool :=
  e.matchesExclude || e.insideExcluded

/-- The modal indicators of `isModalLike` (contentScript.js line 282). -/
def modalIndicators : List String :=
  ["modal", "popup", "overlay", "dialog", "drawer"]

/-- `isModalLike` (contentScript.js lines 257-286). -/
def isModalLike (e : Elem) : Bool :=
  decide (1000 < e.zIndex) ||
    modalIndicators.any (fun ind =>
      containsStr (toLowerStr e.className) ind ||
        containsStr (toLowerStr e.idAttr) ind)

/-- The content script's module-level mutable state (contentScript.js
lines 73-79): the `detectedElements` set (insertion order), the single
`currentTosElement` reference, whether the floating action button is in
the document, plus two instrumentation counters — how many times a FAB
was created and appended, and how many `DETECT_TOS` notifications were
sent to the background script. -/
structure DetectorState where
  detectedElements : List Nat
  currentTosElement : Option Nat
  fabPresent : Bool
  fabCreations : Nat
  notifications : Nat
  deriving Repr, DecidableEq

/-- The initial state (no detections, no FAB). -/
def initState : DetectorState := ⟨[], none, false, 0, 0⟩

/-- `handleTosDetection` (contentScript.js lines 291-314): store the
element as current; create and append the FAB only if none is in the
document. -/
def handleTosDetection (e : Elem) (s : DetectorState) : DetectorState :=
  let s1 := { s with currentTosElement := some e.key }
  if s1.fabPresent then s1
  else { s1 with fabPresent := true, fabCreations := s1.fabCreations + 1 }

/-- `hideFab` (contentScript.js lines 319-325). -/
def hideFab (s : DetectorState) : DetectorState :=
  { s with fabPresent := false, currentTosElement := none }

/-- `checkForTosPopup` (contentScript.js lines 170-209). -/
def checkForTosPopup (e : Elem) (s : DetectorState) : DetectorState :=
  if s.detectedElements.contains e.key then s
  else if shouldExcludeElement e then s
  else if !e.visible then s
  else
    let hasKeyword := keywords.any
      (fun k => containsStr (toLowerStr e.text) (toLowerStr k))
    let hasEnoughText := decide (minTextLength ≤ (trimStr e.text).length)
    if hasKeyword && (isModalLike e || hasEnoughText) then
      let s1 := handleTosDetection e s
      { s1 with detectedElements := s1.detectedElements ++ [e.key],
                notifications := s1.notifications + 1 }
    else s

/-- One mutation-observer notification (contentScript.js lines
108-141): an added element node, a removed subtree (the keys of the
removed node and its descendants), or an attribute change. -/
inductive DomEvent
  | addedNode (e : Elem)
  | removedSubtree (keys : List Nat)
  | attrChange (e : Elem)

/-- Processing of one mutation record (contentScript.js lines 109-141). -/
def observeStep (s : DetectorState) (ev : DomEvent) : DetectorState :=
  match ev with
  | .addedNode e => checkForTosPopup e s
  | .removedSubtree keys =>
    match s.currentTosElement with
    | some k => if keys.contains k then hideFab s else s
    | none => s
  | .attrChange e =>
    let s1 := checkForTosPopup e s
    match s1.currentTosElement with
    | some k => if k == e.key && !e.visible then hideFab s1 else s1
    | none => s1

/-- A whole observation run from the initial state. -/
def observeRun (events : List DomEvent) : DetectorState :=
  events.foldl observeStep initState

/-! ## Retry Messenger (`sendMessageWithRetry`, contentScript.js lines
497-536 and the popup script lines 9-40; both share the same control
flow — the popup variant returns the response or rethrows, the content
variant surfaces the message to the user) -/

/-- Restart-class error test (contentScript.js lines 514-517). -/
def isServiceWorkerError (msg : String) : Bool :=
  containsStr msg "context invalidated" ||
    containsStr msg "Extension context" ||
    containsStr msg "message port"

/-- Result of a `sendMessageWithRetry` run: the outcome, the number of
attempts performed, and the backoff delays (ms) awaited before each
retry, in order. -/
structure RetryTrace (α : Type) where
  result : Except String α
  attemptsMade : Nat
  delays : List Nat
  deriving Repr

/-- The retry loop from a given attempt index, with `remaining` loop
iterations left (`remaining = maxRetries - attempt`); the JS
`isLastAttempt = (attempt === maxRetries - 1)` is `remaining = 1`,
checked after consuming one iteration.  The `remaining = 0` base case
is the JS loop falling off the end (returning `undefined`), reachable
only when `maxRetries = 0`. -/
def retryFrom {α : Type} (channel : Nat → Except String α) :
    Nat → Nat → RetryTrace α
  | attempt, 0 => ⟨.error "", attempt, []⟩
  | attempt, remaining + 1 =>
    match channel attempt with
    | .ok r => ⟨.ok r, attempt + 1, []⟩
    | .error msg =>
      if isServiceWorkerError msg && !(remaining == 0) then
        let rest := retryFrom channel (attempt + 1) remaining
        ⟨rest.result, rest.attemptsMade, 200 * 2 ^ attempt :: rest.delays⟩
      else ⟨.error msg, attempt + 1, []⟩

/-- `sendMessageWithRetry(message, maxRetries = 3)`. -/
def sendMessageWithRetry {α : Type} (channel : Nat → Except String α)
    (maxRetries : Nat := 3) : RetryTrace α :=
  retryFrom channel 0 maxRetries

/-! ## Helper lemmas about substring search -/

theorem prefixAt_append (l t : List Char) : prefixAt l (l ++ t) = true := by
  induction l with
  | nil => rfl
  | cons c cs ih => simp [prefixAt, ih]

theorem containsSub_append_left (l t : List Char) :
    containsSub (l ++ t) l = true := by
  unfold containsSub
  rw [prefixAt_append, Bool.true_or]

theorem containsStr_first (t x y : String) :
    containsStr (t ++ " " ++ x ++ " " ++ y) t = true := by
  rw [containsStr]
  rw [show (t ++ " " ++ x ++ " " ++ y).toList =
      t.toList ++ (" " ++ x ++ " " ++ y : String).toList from by
    show (t ++ " " ++ x ++ " " ++ y).data =
      t.data ++ (" " ++ x ++ " " ++ y : String).data
    simp [String.data_append]]
  exact containsSub_append_left _ _

/-! ## Claim theorems for the Document Verifier -/

/-- **C3**.  The Document Verifier marks a fetched document as legal iff
its cleaned text is at least 500 characters long AND at least 3
distinct terms of the fixed legal-term list occur in it; in particular
every document whose cleaned text is shorter than 500 characters is
rejected regardless of keyword content. -/
theorem verifier_threshold (raw : String) :
    ((verifyTosDocument (.ok raw)).isToS = true ↔
      minTosDocumentLength ≤ (cleanWhitespace raw).length ∧
        3 ≤ countLegalTerms (toLowerStr (cleanWhitespace raw))) ∧
    ((cleanWhitespace raw).length < minTosDocumentLength →
      (verifyTosDocument (.ok raw)).isToS = false) := by
  have hv : verifyTosDocument (.ok raw) = verifyCore raw := rfl
  rw [hv]
  simp only [verifyCore]
  by_cases h : (cleanWhitespace raw).length < minTosDocumentLength
  · rw [if_pos h]
    constructor
    · simp only [Bool.false_eq_true, false_iff]
      intro hcon
      omega
    · intro
      rfl
  · rw [if_neg h]
    constructor
    · simp only [decide_eq_true_eq]
      constructor
      · intro hcnt
        exact ⟨by omega, hcnt⟩
      · intro hcon
        exact hcon.2
    · intro hlt
      exact absurd hlt h

/-- Witness for C3: a keyword-rich but short document is rejected. -/
theorem verifier_threshold_witness :
    (verifyTosDocument (.ok "liability disclaimer warranty")).isToS = false :=
  (verifier_threshold "liability disclaimer warranty").2 (by decide)

/-- **C10**.  The Document Verifier is total at its public interface:
every input yields a result object (the embedding is a total function),
and any internal exception (the `.error` input, caught by the JS
`catch`) yields `isToS = false`, confidence 0 and empty extracted
text. -/
theorem verifier_total (x : Except Unit String) :
    (∃ r : VerifyResult, verifyTosDocument x = r) ∧
    (∀ e : Unit, x = .error e →
      verifyTosDocument x = ⟨false, 0, "", 0, "Parse error"⟩) := by
  refine ⟨⟨verifyTosDocument x, rfl⟩, ?_⟩
  rintro e rfl
  rfl

/-- Witness for C10 at the error input. -/
theorem verifier_total_witness :
    verifyTosDocument (.error ()) = ⟨false, 0, "", 0, "Parse error"⟩ :=
  (verifier_total (.error ())).2 () rfl

/-! ## Claim theorems for the Link Scorer -/

/-- **C4, counterexample**.  A link whose trimmed lowercased visible
text exactly equals the keyword "privacy" scores 60, not 100, when an
earlier keyword ("legal", from the title attribute) occurs in the
combined haystack: the first-match short-circuit fires on "legal"
before the exact match on "privacy" is ever examined. -/
theorem link_scorer_exact_counterexample :
    "privacy" ∈ linkKeywords ∧
    toLowerStr (trimStr "privacy") = "privacy" ∧
    scoreAnchor id ⟨"/account", "privacy", "legal", ""⟩ =
      some ⟨"/account", "privacy", 60, "legal"⟩ ∧
    (60 : Nat) ≠ 100 :=
  ⟨by decide, by decide, by decide, by decide⟩

theorem scoreUrlFold_high (u : String) (c : Nat) (k : String)
    (hc : 70 ≤ c) (hk : (k == "") = false) :
    scoreUrlFold u (c, k) = (c, k) := by
  rw [scoreUrlFold]
  generalize linkKeywords = ks
  induction ks with
  | nil => rfl
  | cons kk ks ih =>
    rw [List.foldl_cons]
    split
    · rw [hk, Nat.max_eq_left hc]
      simpa using ih
    · exact ih

theorem scoreUrlFold_le (u : String) :
    ∀ (ks : List String) (acc : Nat × String), acc.1 ≤ 70 →
      (List.foldl
        (fun acc k =>
          if containsStr u (replaceWsStr k "-") ||
              containsStr u (replaceWsStr k "") then
            (max acc.1 70, if acc.2 == "" then k else acc.2)
          else acc)
        acc ks).1 ≤ 70 := by
  intro ks
  induction ks with
  | nil => intro acc h; exact h
  | cons kk ks ih =>
    intro acc h
    rw [List.foldl_cons]
    split
    · exact ih _ (by simp; omega)
    · exact ih _ h

/-- First-match characterization of the keyword loop. -/
theorem scoreTextLoop_eq_find (text combined : String) (ks : List String) :
    scoreTextLoop text combined ks =
      match ks.find? (fun k => containsStr combined k) with
      | none => (0, "")
      | some k => (if text == k then 100
                   else if containsStr text k then 80
                   else 60, k) := by
  induction ks with
  | nil => rfl
  | cons k ks ih =>
    rw [scoreTextLoop, List.find?_cons]
    by_cases h : containsStr combined k
    · simp [h]
    · simp only [h, Bool.false_eq_true, if_false]
      rw [ih]

/-- **C4 (amended)**.  A link whose trimmed lowercased visible text is
"terms of service" (the first keyword in list order, hence always the
first match) scores 100; an anchor on which the text loop matched no
keyword scores at most 70 (the URL pass alone cannot exceed 70); and
the text-based confidence is set by the *first* keyword, in
keyword-list order, found in the combined text/title/aria-label
haystack — not by the best of all matches.  (A later keyword equal to
the visible text can thus be shadowed by an earlier substring match,
as the counterexample shows.) -/
theorem link_scorer_scoring (a b : Anchor)
    (ha : toLowerStr (trimStr a.text) = "terms of service")
    (hhref : (a.href == "" || prefixAt "javascript:".toList a.href.toList ||
      a.href == "#") = false)
    (hb : scoreTextLoop (toLowerStr (trimStr b.text))
      (toLowerStr (trimStr b.text) ++ " " ++ toLowerStr b.title ++ " " ++
        toLowerStr b.ariaLabel) linkKeywords = (0, "")) :
    (∃ l, scoreAnchor id a = some l ∧ l.confidence = 100) ∧
    (∀ l, scoreAnchor id b = some l → l.confidence ≤ 70) ∧
    (∀ text combined : String,
      scoreTextLoop text combined linkKeywords =
        match linkKeywords.find? (fun k => containsStr combined k) with
        | none => (0, "")
        | some k => (if text == k then 100
                     else if containsStr text k then 80
                     else 60, k)) := by
  refine ⟨?_, ?_, fun text combined => scoreTextLoop_eq_find text combined _⟩
  · unfold scoreAnchor
    rw [hhref]
    simp only [Bool.false_eq_true, if_false]
    rw [ha]
    have hcontains : containsStr
        (("terms of service" : String) ++ " " ++ toLowerStr a.title ++ " " ++
          toLowerStr a.ariaLabel) "terms of service" = true :=
      containsStr_first "terms of service" (toLowerStr a.title)
        (toLowerStr a.ariaLabel)
    rw [show scoreTextLoop "terms of service"
        (("terms of service" : String) ++ " " ++ toLowerStr a.title ++ " " ++
          toLowerStr a.ariaLabel) linkKeywords =
        (100, "terms of service") from by
      rw [linkKeywords, scoreTextLoop, hcontains]
      simp]
    rw [scoreUrlFold_high _ 100 _ (by norm_num) (by decide)]
    exact ⟨_, rfl, rfl⟩
  · unfold scoreAnchor
    intro l hl
    by_cases hb2 : (b.href == "" || prefixAt "javascript:".toList
        b.href.toList || b.href == "#") = true
    · rw [hb2] at hl
      simp at hl
    · rw [Bool.not_eq_true] at hb2
      rw [hb2] at hl
      simp only [Bool.false_eq_true, if_false] at hl
      rw [hb] at hl
      have hle : (scoreUrlFold (toLowerStr b.href) (0, "")).1 ≤ 70 :=
        scoreUrlFold_le (toLowerStr b.href) linkKeywords (0, "") (by norm_num)
      by_cases hpos : 0 < (scoreUrlFold (toLowerStr b.href) (0, "")).1
      · rw [if_pos hpos] at hl
        obtain rfl := Option.some.inj hl
        exact hle
      · rw [if_neg hpos] at hl
        simp at hl

/-- Witness for C4 (amended) at concrete anchors. -/
theorem link_scorer_scoring_witness :
    (∃ l, scoreAnchor id ⟨"/tos", "Terms of Service", "", ""⟩ = some l ∧
      l.confidence = 100) ∧
    (∀ l, scoreAnchor id ⟨"/terms-of-service", "click here", "", ""⟩ =
      some l → l.confidence ≤ 70) ∧
    (∀ text combined : String,
      scoreTextLoop text combined linkKeywords =
        match linkKeywords.find? (fun k => containsStr combined k) with
        | none => (0, "")
        | some k => (if text == k then 100
                     else if containsStr text k then 80
                     else 60, k)) :=
  link_scorer_scoring ⟨"/tos", "Terms of Service", "", ""⟩
    ⟨"/terms-of-service", "click here", "", ""⟩
    (by decide) (by decide) (by decide)

/-! ## Claim theorems for the Extraction Orchestrator -/

/-- A verified-legal result carries nonempty text (its cleaned text is
at least 500 characters long). -/
theorem verify_isToS_text_ne (payload : Except Unit String)
    (h : (verifyTosDocument payload).isToS = true) :
    ((verifyTosDocument payload).text == "") = false := by
  cases payload with
  | error e => exact absurd h (by simp [verifyTosDocument])
  | ok raw =>
    have hv : verifyTosDocument (.ok raw) = verifyCore raw := rfl
    rw [hv] at h ⊢
    simp only [verifyCore] at h ⊢
    by_cases hlen : (cleanWhitespace raw).length < minTosDocumentLength
    · rw [if_pos hlen] at h
      exact absurd h (by simp)
    · rw [if_neg hlen]
      have hne : cleanWhitespace raw ≠ "" := by
        intro heq
        rw [heq] at hlen
        exact hlen (by decide)
      simp [hne]

/-- Spec-side reading of claim C2's first step: the first candidate
link (in ranked order) whose fetch succeeds and verifies as a legal
document, with its verification result. -/
def firstVerifiedLink (fetch : String → Option (Except Unit String)) :
    List TosLink → Option (TosLink × VerifyResult)
  | [] => none
  | l :: rest =>
    match fetch l.url with
    | none => firstVerifiedLink fetch rest
    | some payload =>
      if (verifyTosDocument payload).isToS then
        some (l, verifyTosDocument payload)
      else firstVerifiedLink fetch rest

/-- Modelled from the claim C2 wording (spec §4.4): if some candidate
link yields a verified legal document, return it with sourceKind
`fetched-link`; otherwise, if a tracked popup element's extracted text
meets the minimum length, return it with `current-page-popup`;
otherwise, if the common-popup-selector scan finds a visible element
meeting the minimum length, return it with `current-page-element`;
otherwise return sourceKind `none`. -/
def specFallbackOrder (page : Page) : ExtractionResult :=
  match firstVerifiedLink page.fetch
      (detectTosLinks page.anchors page.resolve) with
  | some (l, v) => ⟨v.text, l.url, "fetched-link", l.text⟩
  | none =>
    match page.detectedElements.head? with
    | some e =>
      if minTextLength ≤ (extractTosText e).length then
        ⟨extractTosText e, page.url, "current-page-popup", ""⟩
      else scanSelectorElements page
    | none => scanSelectorElements page

theorem tryLinks_cons_fetch_fail (fetch : String → Option (Except Unit String))
    (l : TosLink) (rest : List TosLink) (hf : fetch l.url = none) :
    tryLinks fetch (l :: rest) = tryLinks fetch rest := by
  rw [tryLinks, hf]

theorem tryLinks_cons_fetch_ok (fetch : String → Option (Except Unit String))
    (l : TosLink) (rest : List TosLink) (payload : Except Unit String)
    (hf : fetch l.url = some payload) :
    tryLinks fetch (l :: rest) =
      if (verifyTosDocument payload).isToS then
        ⟨true, (verifyTosDocument payload).text, l.url, "fetched", l.text⟩
      else tryLinks fetch rest := by
  rw [tryLinks, hf]

theorem firstVerifiedLink_cons_fetch_fail
    (fetch : String → Option (Except Unit String)) (l : TosLink)
    (rest : List TosLink) (hf : fetch l.url = none) :
    firstVerifiedLink fetch (l :: rest) = firstVerifiedLink fetch rest := by
  rw [firstVerifiedLink, hf]

theorem firstVerifiedLink_cons_fetch_ok
    (fetch : String → Option (Except Unit String)) (l : TosLink)
    (rest : List TosLink) (payload : Except Unit String)
    (hf : fetch l.url = some payload) :
    firstVerifiedLink fetch (l :: rest) =
      if (verifyTosDocument payload).isToS then
        some (l, verifyTosDocument payload)
      else firstVerifiedLink fetch rest := by
  rw [firstVerifiedLink, hf]

theorem tryLinks_of_first_none (fetch : String → Option (Except Unit String)) :
    ∀ links, firstVerifiedLink fetch links = none →
      tryLinks fetch links = ⟨false, "", "", "none", ""⟩ := by
  intro links
  induction links with
  | nil => intro _; rfl
  | cons l rest ih =>
    intro h
    cases hf : fetch l.url with
    | none =>
      rw [firstVerifiedLink_cons_fetch_fail _ _ _ hf] at h
      rw [tryLinks_cons_fetch_fail _ _ _ hf]
      exact ih h
    | some payload =>
      rw [firstVerifiedLink_cons_fetch_ok _ _ _ _ hf] at h
      rw [tryLinks_cons_fetch_ok _ _ _ _ hf]
      by_cases hv : (verifyTosDocument payload).isToS = true
      · rw [if_pos hv] at h
        cases h
      · rw [if_neg hv] at h
        rw [if_neg hv]
        exact ih h

theorem tryLinks_of_first_some (fetch : String → Option (Except Unit String)) :
    ∀ links l v, firstVerifiedLink fetch links = some (l, v) →
      tryLinks fetch links = ⟨true, v.text, l.url, "fetched", l.text⟩ ∧
        v.isToS = true ∧ (v.text == "") = false := by
  intro links
  induction links with
  | nil => intro l v h; cases h
  | cons cand rest ih =>
    intro l v h
    cases hf : fetch cand.url with
    | none =>
      rw [firstVerifiedLink_cons_fetch_fail _ _ _ hf] at h
      rw [tryLinks_cons_fetch_fail _ _ _ hf]
      exact ih l v h
    | some payload =>
      rw [firstVerifiedLink_cons_fetch_ok _ _ _ _ hf] at h
      rw [tryLinks_cons_fetch_ok _ _ _ _ hf]
      by_cases hv : (verifyTosDocument payload).isToS = true
      · rw [if_pos hv] at h
        have hpair := Option.some.inj h
        rw [Prod.mk.injEq] at hpair
        obtain ⟨rfl, rfl⟩ := hpair
        exact ⟨by rw [if_pos hv], hv, verify_isToS_text_ne payload hv⟩
      · rw [if_neg hv] at h
        rw [if_neg hv]
        exact ih l v h

theorem findAndFetch_eq_tryLinks (page : Page) :
    findAndFetchTosDocument page =
      tryLinks page.fetch (detectTosLinks page.anchors page.resolve) := by
  rw [findAndFetchTosDocument]
  by_cases h : (detectTosLinks page.anchors page.resolve).isEmpty = true
  · rw [if_pos h, List.isEmpty_iff.mp h]
    rfl
  · rw [if_neg h]

/-- **C2**.  The Extraction Orchestrator follows the strict fallback
order of the claim: first a verified fetched link (`fetched-link`),
else the first tracked popup element when its extracted text meets the
minimum length (`current-page-popup`), else the first visible
common-selector element meeting the minimum length
(`current-page-element`), else sourceKind `none`.  The embedding is a
total function, so the `none` outcome is a returned value, not a thrown
error. -/
theorem extraction_fallback_order (page : Page) :
    extractTosTextFromPage page = specFallbackOrder page := by
  rw [extractTosTextFromPage, specFallbackOrder, findAndFetch_eq_tryLinks]
  cases hfv : firstVerifiedLink page.fetch
      (detectTosLinks page.anchors page.resolve) with
  | some lv =>
    obtain ⟨l, v⟩ := lv
    obtain ⟨htry, hts, hne⟩ := tryLinks_of_first_some _ _ l v hfv
    rw [htry]
    simp [hne]
  | none =>
    rw [tryLinks_of_first_none _ _ hfv]
    simp only [Bool.false_and, Bool.false_eq_true, if_false]
    cases page.detectedElements with
    | nil => rfl
    | cons e rest => rfl

/-! ## Claim theorems for the Popup Detector -/

/-- **C5, counterexample**.  Two successive qualifying popup
detections: the second element *replaces* the first as the tracked
element (`currentTosElement` ends at key 2, not key 1), although the
first is still visible and in the DOM (no removal or hiding event
occurred).  The claim's "first-detected wins until it disappears" is
false on the code; only the affordance is idempotent (one FAB
creation). -/
theorem popup_tracking_counterexample :
    observeRun
      [DomEvent.addedNode
        ⟨1, false, false, true, 2000, "modal", "",
          "please accept our terms of service"⟩,
       DomEvent.addedNode
        ⟨2, false, false, true, 2000, "modal", "",
          "please review the privacy policy"⟩] =
      ⟨[1, 2], some 2, true, 1, 2⟩ ∧
    some 2 ≠ some (1 : Nat) := by
  constructor
  · decide
  · decide

theorem popup_tracking_last_wins (s : DetectorState) (e : Elem)
    (hnew : s.detectedElements.contains e.key = false)
    (hexc : shouldExcludeElement e = false)
    (hvis : e.visible = true)
    (hkw : keywords.any
      (fun k => containsStr (toLowerStr e.text) (toLowerStr k)) = true)
    (hq : (isModalLike e ||
      decide (minTextLength ≤ (trimStr e.text).length)) = true)
    (hfab : s.fabPresent = true) :
    checkForTosPopup e s =
      { s with currentTosElement := some e.key,
               detectedElements := s.detectedElements ++ [e.key],
               notifications := s.notifications + 1 } := by
  rw [checkForTosPopup, hnew, hexc, hvis]
  simp only [Bool.false_eq_true, if_false, Bool.not_false, if_true]
  rw [hkw, hq]
  simp only [Bool.and_self, if_true]
  rw [handleTosDetection]
  simp [hfab]

/-- Witness for C5 (amended): a state already tracking element 1 with
the FAB present processes a second qualifying element. -/
theorem popup_tracking_last_wins_witness :
    checkForTosPopup
      ⟨2, false, false, true, 2000, "modal", "",
        "please review the privacy policy"⟩
      ⟨[1], some 1, true, 1, 1⟩ =
      ⟨[1, 2], some 2, true, 1, 2⟩ :=
  popup_tracking_last_wins ⟨[1], some 1, true, 1, 1⟩
    ⟨2, false, false, true, 2000, "modal", "",
      "please review the privacy policy"⟩
    (by decide) (by decide) (by decide) (by decide) (by decide) (by decide)

/-- **C9**.  An element that matches an exclude selector or lies inside
an excluded ad/promo/banner container is never detected: processing it
leaves the whole detector state unchanged — no tracking, no affordance,
no detection notification — even if it satisfies every other
heuristic. -/
theorem excluded_element_never_detected (e : Elem) (s : DetectorState)
    (h : shouldExcludeElement e = true) :
    checkForTosPopup e s = s := by
  cases hc : s.detectedElements.contains e.key with
  | true => rw [checkForTosPopup, hc]; rfl
  | false =>
    rw [checkForTosPopup, hc, h]
    rfl

/-- Witness for C9: an element inside an excluded ad container that is
visible, modal-like and keyword-bearing is still ignored. -/
theorem excluded_element_never_detected_witness :
    checkForTosPopup
      ⟨3, true, true, true, 2000, "modal", "",
        "please accept our terms of service and privacy policy"⟩
      initState = initState :=
  excluded_element_never_detected
    ⟨3, true, true, true, 2000, "modal", "",
      "please accept our terms of service and privacy policy"⟩
    initState (by decide)

/-! ## Claim theorems for the Retry Messenger -/

theorem retryFrom_succ_ok {α : Type} (ch : Nat → Except String α)
    (attempt rem : Nat) (r : α) (h : ch attempt = .ok r) :
    retryFrom ch attempt (rem + 1) = ⟨.ok r, attempt + 1, []⟩ := by
  rw [retryFrom, h]

theorem retryFrom_succ_error {α : Type} (ch : Nat → Except String α)
    (attempt rem : Nat) (msg : String) (h : ch attempt = .error msg) :
    retryFrom ch attempt (rem + 1) =
      if isServiceWorkerError msg && !(rem == 0) then
        ⟨(retryFrom ch (attempt + 1) rem).result,
         (retryFrom ch (attempt + 1) rem).attemptsMade,
         200 * 2 ^ attempt :: (retryFrom ch (attempt + 1) rem).delays⟩
      else ⟨.error msg, attempt + 1, []⟩ := by
  rw [retryFrom, h]

theorem retryFrom_bounds {α : Type} (ch : Nat → Except String α) :
    ∀ (remaining attempt : Nat),
      (retryFrom ch attempt remaining).attemptsMade ≤ attempt + remaining ∧
      List.Chain' (· < ·) (retryFrom ch attempt remaining).delays ∧
      ∀ d ∈ (retryFrom ch attempt remaining).delays, 200 * 2 ^ attempt ≤ d := by
  intro remaining
  induction remaining with
  | zero =>
    intro attempt
    refine ⟨Nat.le_refl _, List.chain'_nil, ?_⟩
    intro d hd
    exact absurd hd (List.not_mem_nil d)
  | succ rem ih =>
    intro attempt
    cases hch : ch attempt with
    | ok r =>
      rw [retryFrom_succ_ok ch attempt rem r hch]
      refine ⟨?_, List.chain'_nil, ?_⟩
      · show attempt + 1 ≤ attempt + (rem + 1)
        omega
      · intro d hd
        exact absurd hd (List.not_mem_nil d)
    | error msg =>
      rw [retryFrom_succ_error ch attempt rem msg hch]
      by_cases hsw : (isServiceWorkerError msg && !(rem == 0)) = true
      · rw [if_pos hsw]
        obtain ⟨h1, h2, h3⟩ := ih (attempt + 1)
        have hpow : 200 * 2 ^ attempt < 200 * 2 ^ (attempt + 1) := by
          have hp : 0 < 2 ^ attempt := Nat.pos_pow_of_pos attempt (by norm_num)
          rw [pow_succ]
          omega
        refine ⟨?_, ?_, ?_⟩
        · show (retryFrom ch (attempt + 1) rem).attemptsMade ≤
            attempt + (rem + 1)
          omega
        · show List.Chain' (· < ·)
            (200 * 2 ^ attempt :: (retryFrom ch (attempt + 1) rem).delays)
          refine List.chain'_cons'.mpr ⟨?_, h2⟩
          intro y hy
          have := h3 y (List.mem_of_mem_head? hy)
          omega
        · intro d hd
          have hd' : d ∈ 200 * 2 ^ attempt ::
              (retryFrom ch (attempt + 1) rem).delays := hd
          rcases List.mem_cons.mp hd' with rfl | hd2
          · exact Nat.le_refl _
          · have := h3 d hd2
            omega
      · rw [if_neg hsw]
        refine ⟨?_, List.chain'_nil, ?_⟩
        · show attempt + 1 ≤ attempt + (rem + 1)
          omega
        · intro d hd
          exact absurd hd (List.not_mem_nil d)

/-- **C6**.  The Retry Messenger retries only restart-class failures,
waiting 200·2^attempt ms before each retry (strictly increasing
delays, attempt starting at 0), within the fixed maximum of 3
attempts: a channel failing with restart-class errors on attempts 0
and 1 and succeeding on attempt 2 ultimately succeeds after delays
[200, 400]; a channel whose first failure is not restart-class fails
on the first attempt, with no retry, no delay, and the underlying
message; and for every channel at most 3 attempts are made and the
awaited delays are strictly increasing. -/
theorem retry_messenger_behaviour {α : Type} (ch1 ch2 : Nat → Except String α)
    (m0 m1 m : String) (r : α)
    (h0 : ch1 0 = .error m0) (h0w : isServiceWorkerError m0 = true)
    (h1 : ch1 1 = .error m1) (h1w : isServiceWorkerError m1 = true)
    (h2 : ch1 2 = .ok r)
    (hn : ch2 0 = .error m) (hnw : isServiceWorkerError m = false) :
    sendMessageWithRetry ch1 3 = ⟨.ok r, 3, [200, 400]⟩ ∧
    sendMessageWithRetry ch2 3 = ⟨.error m, 1, []⟩ ∧
    ∀ ch : Nat → Except String α,
      (sendMessageWithRetry ch 3).attemptsMade ≤ 3 ∧
      List.Chain' (· < ·) (sendMessageWithRetry ch 3).delays := by
  refine ⟨?_, ?_, ?_⟩
  · have hstep2 : retryFrom ch1 2 1 = ⟨.ok r, 3, []⟩ := by
      rw [show (1 : Nat) = 0 + 1 from rfl, retryFrom_succ_ok ch1 2 0 r h2]
    have hstep1 : retryFrom ch1 1 2 = ⟨.ok r, 3, [400]⟩ := by
      rw [show (2 : Nat) = 1 + 1 from rfl,
        retryFrom_succ_error ch1 1 1 m1 h1]
      rw [if_pos (by rw [h1w]; rfl)]
      rw [hstep2]
      rfl
    rw [sendMessageWithRetry, show (3 : Nat) = 2 + 1 from rfl,
      retryFrom_succ_error ch1 0 2 m0 h0]
    rw [if_pos (by rw [h0w]; rfl)]
    rw [hstep1]
    rfl
  · rw [sendMessageWithRetry, show (3 : Nat) = 2 + 1 from rfl,
      retryFrom_succ_error ch2 0 2 m hn]
    rw [if_neg (by rw [hnw]; simp)]
  · intro ch
    obtain ⟨hatt, hchain, _⟩ := retryFrom_bounds ch 3 0
    exact ⟨hatt, hchain⟩

/-- Witness for C6 at concrete channels. -/
theorem retry_messenger_behaviour_witness :
    sendMessageWithRetry
      (fun n => if n < 2 then Except.error "message port closed"
                else Except.ok (42 : Nat)) 3 = ⟨.ok 42, 3, [200, 400]⟩ ∧
    sendMessageWithRetry
      (fun _ => (Except.error "boom" : Except String Nat)) 3 =
      ⟨.error "boom", 1, []⟩ := by
  have h := retry_messenger_behaviour
    (fun n => if n < 2 then Except.error "message port closed"
              else Except.ok (42 : Nat))
    (fun _ => (Except.error "boom" : Except String Nat))
    "message port closed" "message port closed" "boom" 42
    rfl (by decide) rfl (by decide) rfl rfl (by decide)
  exact ⟨h.1, h.2.1⟩

end LegalLens
